import Mathlib

/-!
Shallow embedding of `paxml/eval_lib.py` (evaluation/decode orchestration
for Pax models) and proofs about its per-split loops, checkpoint waiting,
stop decision, metric merging, metric tracking and EMA extraction.
-/

namespace PaxEval

/-! ## Per-split evaluation loop

Embeds the inner while-loop of `run_eval_loop_over_test_splits`
(eval_lib.py lines 197-211 and the final `num_eval_steps.append(step_num)`
at line 265).  The Python loop is

    step_num = 0
    while num_split_steps < 0 or step_num < num_split_steps:
      step_num += 1
      try:
        eval_inputs = model_inputs[split].get_next_padded()
      except (tf.errors.OutOfRangeError, StopIteration):
        if num_split_steps > 0:
          raise
        model_inputs[split].reset()
        break
      ... run one eval step ...
    num_eval_steps.append(step_num)

The input pipeline is modelled by the number `remaining` of batches it can
still produce before raising the end-of-input exception.  The result is
`Except.error ()` when the loop re-raises (budget violation), and
`Except.ok (stepNum, didReset)` otherwise, where `stepNum` is the value
appended to `num_eval_steps` and `didReset` records whether
`model_inputs[split].reset()` ran. -/
def evalLoopAux (budget : Int) : Nat → Nat → Except Unit (Nat × Bool)
  | stepNum, 0 =>
    if budget < 0 ∨ (stepNum : Int) < budget then
      if budget > 0 then .error () else .ok (stepNum + 1, true)
    else .ok (stepNum, false)
  | stepNum, remaining + 1 =>
    if budget < 0 ∨ (stepNum : Int) < budget then
      evalLoopAux budget (stepNum + 1) remaining
    else .ok (stepNum, false)

/-- One split's pass of `run_eval_loop_over_test_splits`: step budget
`budget` (`-1` means run until exhausted), `avail` batches available. -/
def run_eval_loop_split (budget : Int) (avail : Nat) : Except Unit (Nat × Bool) :=
  evalLoopAux budget 0 avail

/-! ## Model / parameter state (train_states.TrainState)

A parameter tree (jax pytree of arrays) is modelled by `PTree`; a leaf
carries an abstract payload, `masked` stands for an `optax.MaskedNode`
(recognized by `py_utils.is_optax_masked_node`), and `node` for an inner
pytree node. -/
inductive PTree where
  | leaf (value : Nat)
  | masked
  | node (children : List PTree)

mutual

/-- The merge of two EMA trees used by `extract_ema` for vectorized models
(eval_lib.py lines 112-116):
`jax.tree_map(lambda x, y: y if is_optax_masked_node(x) else x, ret, v.ema,
is_leaf=is_optax_masked_node)`.  Masked nodes are treated as leaves, so a
masked position takes the other tree's value and any other leaf keeps its
own; inner nodes are zipped structurally.  (On mismatched structures
`jax.tree_map` raises; those inputs never arise in the states considered
here, and the model returns the first tree's structure.) -/
def combineMasked : PTree → PTree → PTree
  | .masked, y => y
  | .leaf n, _ => .leaf n
  | .node xs, .node ys => .node (combineMaskedList xs ys)
  | .node xs, .leaf _ => .node xs
  | .node xs, .masked => .node xs

def combineMaskedList : List PTree → List PTree → List PTree
  | [], _ => []
  | _ :: _, [] => []
  | x :: xs, y :: ys => combineMasked x y :: combineMaskedList xs ys

end

/-- One element of a learner's optimizer-state container, as inspected by
`extract_ema`: a python dict (possibly holding an `ema` entry mapping to
a parameter tree), a tuple of such elements (the per-prefix value in a
vectorized optimizer state), or any other optax state object. -/
inductive OptEntry where
  | dict (entries : List (String × PTree))
  | tup (items : List OptEntry)
  | other

/-- The test `isinstance(v, dict) and ema in v` followed by `v.ema`
(eval_lib.py lines 95-96 and 108-110): the `ema` entry of a dict
element, if any. -/
def entryEma : OptEntry → Option PTree
  | .dict es => es.lookup "ema"
  | _ => none

/-- One learner's optimizer state `opt_states[i]`: either a list/tuple of
optax states (non-vectorized models) or a dict keyed by vectorization
prefixes (vectorized models). -/
inductive LearnerOpt where
  | listC (items : List OptEntry)
  | dictC (entries : List (String × OptEntry))

/-- `optimizer_prefix_vectorization.NO_PREFIX_KEY`. -/
def NO_PREFIX_KEY : String := "no_prefix"

/-- The membership test `NO_PREFIX_KEY in states.opt_states[0]`
(eval_lib.py line 78).  On a dict, python `in` checks the keys; on a
list/tuple it checks the elements, and a tuple of optimizer states never
contains the bare string, so the test is false for a list container. -/
def isVectorizedLearner : LearnerOpt → Bool
  | .listC _ => false
  | .dictC entries => (entries.map Prod.fst).contains NO_PREFIX_KEY

/-- `train_states.TrainState`: step counter, model variables, and the
per-learner optimizer states (`{}` modelled as `[]`). -/
structure TrainState where
  step : Nat
  mdlVars : PTree
  optStates : List LearnerOpt

/-- `_is_vectorized` (eval_lib.py lines 73-78): raises `ValueError` when
`opt_states` is empty, else tests `NO_PREFIX_KEY in opt_states[0]`. -/
def _is_vectorized (states : TrainState) : Except String Bool :=
  match states.optStates with
  | [] => .error "cannot decide if it is vectorized model without opt_states"
  | l :: _ => .ok (isVectorizedLearner l)

/-- The non-vectorized scan of `extract_ema` (lines 94-96): the first dict
element of the learner state carrying an `ema` entry.  Iterating a dict
container yields its string keys, which are never dicts, so a dict
container yields nothing on this path. -/
def nonVecFind : LearnerOpt → Option PTree
  | .listC items => items.findSome? entryEma
  | .dictC _ => none

/-- The body of the vectorized scan of `extract_ema` (lines 105-116): for
one value `item` of the prefix dict, fold all `ema` entries of its tuple
elements into the accumulator with `combineMasked`. -/
def vecAccum (acc : Option PTree) (item : OptEntry) : Option PTree :=
  match item with
  | .tup items =>
    items.foldl
      (fun a v =>
        match entryEma v with
        | some t =>
          match a with
          | none => some t
          | some r => some (combineMasked r t)
        | none => a)
      acc
  | _ => acc

/-- The vectorized scan of `extract_ema` (lines 98-116), folding
`vecAccum` over the values of the prefix dict.  (`.values()` on a list
container would raise; that path is unreachable because a list container
is never classified as vectorized.) -/
def vecFold : LearnerOpt → Option PTree
  | .dictC entries => (entries.map Prod.snd).foldl vecAccum none
  | .listC _ => none

/-- `extract_ema` (eval_lib.py lines 86-120). -/
def extract_ema (modelStates : TrainState) : Except String TrainState :=
  match modelStates.optStates with
  | [l] =>
    if isVectorizedLearner l then
      match vecFold l with
      | some ret => .ok ⟨modelStates.step, ret, []⟩
      | none => .error "Could not find EMA states"
    else
      match nonVecFind l with
      | some t => .ok ⟨modelStates.step, t, []⟩
      | none => .error "Could not find EMA states"
  | _ => .error "EMA currently only supports a single learner"

/-- Whether any EMA entry is present in the places `extract_ema` can look:
an element of a list container, or an element of a tuple value of a dict
container. -/
def learnerHasEma : LearnerOpt → Bool
  | .listC items => items.any (fun e => (entryEma e).isSome)
  | .dictC entries =>
    entries.any (fun p =>
      match p.2 with
      | .tup items => items.any (fun e => (entryEma e).isSome)
      | _ => false)

/-- `trim_opt_states` (eval_lib.py lines 123-127). -/
def trim_opt_states (modelStates : TrainState) : TrainState :=
  ⟨modelStates.step, modelStates.mdlVars, []⟩

/-- The restore/trim logic of `_PmapEvalRunner.get_model_states`
(eval_lib.py lines 389-399): a missing checkpoint falls back to a fresh
initialization with `discard_opt_states=not use_ema`; a restored state is
trimmed only when neither EMA nor metric tracking is requested; with EMA
the state is replaced by the extracted EMA state. -/
def get_model_states_core (restored : Option TrainState) (freshInit : TrainState)
    (useEma trackMetric : Bool) : Except String TrainState :=
  let modelStates :=
    match restored with
    | none => if useEma then freshInit else trim_opt_states freshInit
    | some ms => if !useEma && !trackMetric then trim_opt_states ms else ms
  if useEma then extract_ema modelStates else .ok modelStates

/-! ## Metric tracker (maybe_update_min_tracked_metric) -/

/-- A destructive filesystem write performed by the decode path: a decoder
output file (`io_utils.write_key_value_pairs`), the tracker's status
record (`tracker.update`), or a best-so-far checkpoint
(`checkpoints.save_checkpoint` in the tracker directory). -/
inductive WriteEvent where
  | decoderOut (entries : Nat)
  | trackerRecord (value : ℚ) (step : Nat)
  | trackerCkpt

/-- Result of one `maybe_update_min_tracked_metric` call: the stored best
value afterwards, the writes performed, and the model state saved as the
best-so-far checkpoint, if any. -/
structure TrackerResult where
  bestValue : ℚ
  writes : List WriteEvent
  savedCheckpoint : Option TrainState

/-- `sys.float_info.max`, the initial tracked-metric value
(eval_lib.py line 1935): `(2 - 2⁻⁵²) · 2¹⁰²³`. -/
def floatInfoMax : ℚ := 2 ^ 1024 - 2 ^ 971

/-- `maybe_update_min_tracked_metric` (eval_lib.py lines 1902-1953).
Only the process with index 0 touches the tracker; `storedBest` is the
value of the persisted `MetricTracker` record (`sys.float_info.max` when
absent); on a strict improvement the record is rewritten and the first
replica of `replicatedModelStates` is saved unchanged
(`jax.tree_map(lambda x: x[0], ...)` keeps every component, including
`opt_states`, so the saved state is the input state). -/
def maybe_update_min_tracked_metric (processIndex : Nat) (mValue : ℚ) (step : Nat)
    (storedBest : ℚ) (replicatedModelStates : TrainState) : TrackerResult :=
  if processIndex = 0 then
    if mValue < storedBest then
      ⟨mValue, [.trackerRecord mValue step, .trackerCkpt], some replicatedModelStates⟩
    else ⟨storedBest, [], none⟩
  else ⟨storedBest, [], none⟩

/-- A placeholder snapshot for runs where the saved state is irrelevant. -/
def emptyTrainState : TrainState := ⟨0, .leaf 0, []⟩

/-- Feeding a sequence of `(value, step)` observations through the tracker
on process 0, starting from stored best `storedBest`: the final stored
best and, per call, whether a persistence event happened. -/
def runTracker (storedBest : ℚ) : List (ℚ × Nat) → ℚ × List Bool
  | [] => (storedBest, [])
  | (v, st) :: rest =>
    let r := maybe_update_min_tracked_metric 0 v st storedBest emptyTrainState
    let w := runTracker r.bestValue rest
    (w.1, (!r.writes.isEmpty) :: w.2)

/-! ## Per-split decode loop (decode_once_pmap_model / decode_once_spmd_model)

The decode while-loop (eval_lib.py lines 1343-1363 for pmap, 1754-1774 for
spmd) has the same step/fetch structure as the eval loop but never
re-raises on exhaustion: any end-of-input resets the split and breaks. -/
def decodeLoopAux (budget : Int) : Nat → Nat → Nat × Nat × Bool
  | stepNum, 0 =>
    if budget < 0 ∨ (stepNum : Int) < budget then (stepNum + 1, 0, true)
    else (stepNum, 0, false)
  | stepNum, remaining + 1 =>
    if budget < 0 ∨ (stepNum : Int) < budget then decodeLoopAux budget (stepNum + 1) remaining
    else (stepNum, remaining + 1, false)

/-- One split's decode loop: final `step_num`, batches left unconsumed,
and whether the input was reset. -/
def decode_loop_run (budget : Int) (avail : Nat) : Nat × Nat × Bool :=
  decodeLoopAux budget 0 avail

/-- The value appended to `num_decode_steps` for an executed split pass. -/
def decodeStepsReported (budget : Int) (avail : Nat) : Nat :=
  (decode_loop_run budget avail).1

/-- Number of batches consumed, i.e. of executor (`decode_step`) calls. -/
def decodeConsumed (budget : Int) (avail : Nat) : Nat :=
  avail - (decode_loop_run budget avail).2.1

/-- Observable outcome of one split of a decode-once pass: the entry
appended to `num_decode_steps`, the number of executor calls, the length
of `processed_decodes` on this host, whether real (non-`None`) metric
entries were recorded for the split, and the filesystem writes. -/
structure DecodeSplitOut where
  stepsPerformed : Nat
  executorCalls : Nat
  processedCount : Nat
  metricsRecorded : Bool
  writes : List WriteEvent

/-- `_can_load_decode_outs` (eval_lib.py lines 1003-1013): process 0 tries
to load the persisted outputs and broadcasts their count; the probe
succeeds iff loading succeeded with a positive number of entries. -/
def _can_load_decode_outs (persistedEntries : Option Nat) : Bool :=
  match persistedEntries with
  | none => false
  | some n => decide (0 < n)

/-- One split of `decode_once_spmd_model` (eval_lib.py lines 1744-1897):
on a successful skip probe the split is skipped with `None` metrics and 0
steps (lines 1745-1752); otherwise the loop runs, only process 0 collects
`processed_decodes` (line 1811 `continue`), and only process 0 writes the
decoder output file (lines 1876-1883).  `outsPerBatch` is the number of
processed outputs `process_decode_out` yields per batch. -/
def decode_once_split_spmd (processIndex : Nat) (alreadyDone : Bool) (budget : Int)
    (avail outsPerBatch : Nat) : DecodeSplitOut :=
  if alreadyDone then ⟨0, 0, 0, false, []⟩
  else
    let consumed := decodeConsumed budget avail
    let processed := if processIndex = 0 then consumed * outsPerBatch else 0
    ⟨decodeStepsReported budget avail, consumed, processed, true,
      if processIndex = 0 then [.decoderOut processed] else []⟩

/-- One split of `decode_once_pmap_model` (eval_lib.py lines 1333-1461):
same skip probe (lines 1334-1341); processing is guarded by
`jax.process_index() == 0` (line 1377); metric tracking (lines 1429-1437)
calls `maybe_update_min_tracked_metric` when `trackMetricOn` (i.e.
`task_p.track_decoder_metric` is set and found among the processed
metrics); the decoder output write additionally requires
`not flags.FLAGS.pax_only_aggregate_summaries` (lines 1442-1450). -/
def decode_once_split_pmap (processIndex : Nat) (onlyAggregateSummaries alreadyDone : Bool)
    (budget : Int) (avail outsPerBatch stepI : Nat) (trackMetricOn : Bool)
    (mValue storedBest : ℚ) (states : TrainState) : DecodeSplitOut :=
  if alreadyDone then ⟨0, 0, 0, false, []⟩
  else
    let consumed := decodeConsumed budget avail
    let processed := if processIndex = 0 then consumed * outsPerBatch else 0
    let trackerWrites :=
      if trackMetricOn then
        (maybe_update_min_tracked_metric processIndex mValue stepI storedBest states).writes
      else []
    let outWrites :=
      if processIndex = 0 ∧ onlyAggregateSummaries = false then [WriteEvent.decoderOut processed]
      else []
    ⟨decodeStepsReported budget avail, consumed, processed, true, trackerWrites ++ outWrites⟩

/-- One split of an spmd decode-once pass together with the persisted
decoder-output store for that `(split, step)` key: the probe reads the
store, and a non-skipped pass on process 0 replaces the store with the
written entry count. -/
def decode_split_spmd_with_store (processIndex : Nat) (store : Option Nat) (budget : Int)
    (avail outsPerBatch : Nat) : DecodeSplitOut × Option Nat :=
  let skipped := _can_load_decode_outs store
  let o := decode_once_split_spmd processIndex skipped budget avail outsPerBatch
  ⟨o, if processIndex = 0 ∧ skipped = false then some o.processedCount else store⟩

/-! ## Checkpoint waiting and the stop decision -/

/-- The wait-for-new-checkpoint loop (eval_lib.py lines 552-558, 878-884,
1166-1172, 1613-1619):

    new_checkpoint_step = retrieve_latest_checkpoint_step(dir)
    while new_checkpoint_step == last_checkpoint_step:
      time.sleep(60)
      new_checkpoint_step = retrieve_latest_checkpoint_step(dir)

`polls` is the sequence of values returned by successive
`retrieve_latest_checkpoint_step` calls; the loop returns the first one
differing from `lastCheckpointStep`, and keeps waiting (`none`) if every
poll so far returned `lastCheckpointStep`. -/
def wait_for_new_checkpoint (lastCheckpointStep : Int) : List Int → Option Int
  | [] => none
  | p :: rest =>
    if p = lastCheckpointStep then wait_for_new_checkpoint lastCheckpointStep rest
    else some p

/-- The stop decision after one round of splits (eval_lib.py lines
534-549 and 862-877): with no known checkpoint step the block is skipped
and the loop proceeds to wait; otherwise
`is_last_ckpt = last + save_interval_steps > num_train_steps`, and the
loop breaks iff `tuning_lib.should_early_stop(...)` returns true or
`is_last_ckpt` holds.  `shouldEarlyStop` abstracts the external
`tuning_lib.should_early_stop` callback boundary, receiving the aggregate
eval metrics, the checkpoint step and the `is_last_ckpt` flag. -/
def eval_loop_stop_decision {M : Type} (lastCheckpointStep : Option Int)
    (saveIntervalSteps numTrainSteps : Int)
    (shouldEarlyStop : M → Int → Bool → Bool) (evalMetrics : M) : Bool :=
  match lastCheckpointStep with
  | none => false
  | some last =>
    let exceededCkpt := last + saveIntervalSteps
    let isLastCkpt : Bool := decide (exceededCkpt > numTrainSteps)
    if shouldEarlyStop evalMetrics last isLastCkpt then true else isLastCkpt

/-! ## clu-metric merging (_merge_clu_metrics) -/

/-- The key set of a metrics dict, `set(metrics.keys())`. -/
def metricKeys {M : Type} (metrics : List (String × M)) : Finset String :=
  (metrics.map Prod.fst).toFinset

/-- `_merge_clu_metrics` (eval_lib.py lines 1016-1028), generic in the
clu-metric type `M` and its `merge` method `mergeFn`.  A populated
`metrics` dict whose key set disagrees with `updated_metrics` raises
`ValueError`; a populated dict with agreeing keys is merged pointwise
(`updated_metrics[key]` cannot miss under the key-set guard; the model
keeps the old value in that unreachable branch); an empty `metrics` dict
is replaced by `updated_metrics`. -/
def _merge_clu_metrics {M : Type} (mergeFn : M → M → M)
    (metrics updatedMetrics : List (String × M)) : Except String (List (String × M)) :=
  if !metrics.isEmpty then
    if metricKeys metrics ≠ metricKeys updatedMetrics then
      .error "metrics and updated_metrics keys do not match"
    else
      .ok (metrics.map fun p =>
        (p.1,
          match updatedMetrics.lookup p.1 with
          | some w => mergeFn p.2 w
          | none => p.2))
  else .ok updatedMetrics

/-- A sample restored state whose (single-learner) optimizer state is not
empty, as restored from a full training checkpoint. -/
def stateWithOptState : TrainState := ⟨11, .leaf 0, [.listC [.other]]⟩

/-- Whether an `OptEntry` is a tuple holding a dict with an `ema` entry
(the shape the vectorized scan of `extract_ema` can exploit). -/
def entryTupHasEma : OptEntry → Bool
  | .tup items => items.any (fun e => (entryEma e).isSome)
  | _ => false

/-- A sample single-learner state carrying an EMA entry. -/
def emaSampleState : TrainState :=
  ⟨7, .leaf 1, [.listC [.other, .dict [("count", .leaf 9), ("ema", .leaf 3)]]]⟩

/-! ## Lemmas about the per-split loops -/

lemma evalLoopAux_neg {budget : Int} (hb : budget < 0) :
    ∀ (remaining stepNum : Nat),
      evalLoopAux budget stepNum remaining = .ok (stepNum + remaining + 1, true) := by
  intro remaining
  induction remaining with
  | zero =>
    intro s
    simp only [evalLoopAux]
    rw [if_pos (Or.inl hb), if_neg (by omega)]
  | succ r ih =>
    intro s
    simp only [evalLoopAux]
    rw [if_pos (Or.inl hb), ih]
    have h : s + 1 + r + 1 = s + (r + 1) + 1 := by omega
    rw [h]

lemma evalLoopAux_zero_budget (remaining stepNum : Nat) :
    evalLoopAux 0 stepNum remaining = .ok (stepNum, false) := by
  cases remaining with
  | zero =>
    simp only [evalLoopAux]
    rw [if_neg (by omega)]
  | succ r =>
    simp only [evalLoopAux]
    rw [if_neg (by omega)]

lemma evalLoopAux_pos {n : Nat} (hn : 0 < n) :
    ∀ (remaining stepNum : Nat),
      evalLoopAux (n : Int) stepNum remaining =
        if n ≤ stepNum then .ok (stepNum, false)
        else if n ≤ stepNum + remaining then .ok (n, false)
        else .error () := by
  intro remaining
  induction remaining with
  | zero =>
    intro s
    by_cases hs : n ≤ s
    · simp only [evalLoopAux]
      rw [if_neg (by omega), if_pos hs]
    · simp only [evalLoopAux]
      rw [if_pos (by omega), if_pos (by omega), if_neg hs, if_neg (by omega)]
  | succ r ih =>
    intro s
    by_cases hs : n ≤ s
    · simp only [evalLoopAux]
      rw [if_neg (by omega), if_pos hs]
    · simp only [evalLoopAux]
      rw [if_pos (by omega), ih (s + 1)]
      by_cases h1 : n ≤ s + 1
      · rw [if_pos h1, if_neg hs, if_pos (by omega)]
        have : s + 1 = n := by omega
        rw [this]
      · rw [if_neg h1, if_neg hs]
        by_cases h2 : n ≤ s + 1 + r
        · rw [if_pos h2, if_pos (by omega)]
        · rw [if_neg h2, if_neg (by omega)]

lemma decodeLoopAux_rem_le (budget : Int) :
    ∀ (remaining stepNum : Nat), (decodeLoopAux budget stepNum remaining).2.1 ≤ remaining := by
  intro remaining
  induction remaining with
  | zero =>
    intro s
    simp only [decodeLoopAux]
    split <;> simp
  | succ r ih =>
    intro s
    simp only [decodeLoopAux]
    split
    · exact le_trans (ih (s + 1)) (by omega)
    · simp

lemma decodeConsumed_pos {budget : Int} (hb : budget ≠ 0) {avail : Nat} (ha : 1 ≤ avail) :
    1 ≤ decodeConsumed budget avail := by
  obtain ⟨a, rfl⟩ : ∃ a, avail = a + 1 := ⟨avail - 1, by omega⟩
  unfold decodeConsumed decode_loop_run
  simp only [decodeLoopAux]
  rw [if_pos (by omega)]
  have h := decodeLoopAux_rem_le budget a (0 + 1)
  omega

/-! ## Claim theorems -/

/-- Claim C1 (code_bug evidence).  With `step_budget = 3` and at least 3
batches the split reports `steps_performed = 3` as claimed; but with
`step_budget = -1` and exactly 5 available batches the loop increments
`step_num` before the fetch that raises end-of-input, so the code resets
the input and reports `steps_performed = 6`, not the 5 steps it actually
performed (its own log line prints `step_num - 1 = 5`). -/
theorem c1_split_step_report :
    run_eval_loop_split 3 5 = .ok (3, false) ∧
    run_eval_loop_split 3 3 = .ok (3, false) ∧
    run_eval_loop_split (-1) 5 = .ok (6, true) := ⟨rfl, rfl, rfl⟩

/-- Claim C2.  A split's eval pass propagates the end-of-input exception
iff the step budget is positive and the input holds fewer batches than the
budget (exhaustion before a positive budget is satisfied); with a negative
budget, exhaustion is handled by resetting the split's input and the pass
ends without error. -/
theorem c2_exhaustion_raises_iff (budget : Int) (avail : Nat) :
    (run_eval_loop_split budget avail = .error () ↔ 0 < budget ∧ (avail : Int) < budget) ∧
    (budget < 0 → run_eval_loop_split budget avail = .ok (avail + 1, true)) := by
  constructor
  · cases budget with
    | ofNat n =>
      rcases Nat.eq_zero_or_pos n with h0 | hp
      · subst h0
        unfold run_eval_loop_split
        rw [show ((Int.ofNat 0) : Int) = (0 : Int) by rfl, evalLoopAux_zero_budget]
        simp
      · unfold run_eval_loop_split
        rw [show ((Int.ofNat n) : Int) = ((n : Nat) : Int) by rfl, evalLoopAux_pos hp]
        rw [if_neg (by omega)]
        by_cases h : n ≤ avail
        · rw [if_pos (by omega)]
          constructor
          · intro hh; exact absurd hh (by simp)
          · intro hh; omega
        · rw [if_neg (by omega)]
          constructor
          · intro _; constructor <;> omega
          · intro _; rfl
    | negSucc n =>
      have hb : (Int.negSucc n) < 0 := Int.negSucc_lt_zero n
      unfold run_eval_loop_split
      rw [evalLoopAux_neg hb]
      constructor
      · intro hh; exact absurd hh (by simp)
      · intro hh; omega
  · intro hb
    unfold run_eval_loop_split
    rw [evalLoopAux_neg hb]
    rw [show 0 + avail + 1 = avail + 1 by omega]

/-- Witness for C2 at concrete inputs: budget 3 with only 2 batches
raises; budget −1 with 4 batches resets and ends without error. -/
theorem c2_witness :
    run_eval_loop_split 3 2 = .error () ∧
    run_eval_loop_split (-1) 4 = .ok (5, true) := by
  constructor
  · exact (c2_exhaustion_raises_iff 3 2).1.mpr (by omega)
  · exact (c2_exhaustion_raises_iff (-1) 4).2 (by omega)

/-- Claim C3 (counterexample).  The wait loop exits on the first polled
value that differs from the known step, not on a strictly greater one: if
the latest-step poll returns 15 after step 20 was reported, the loop
reports 15, which is smaller than 20. -/
theorem c3_counterexample :
    wait_for_new_checkpoint 20 [15] = some 15 ∧ (15 : Int) < 20 := ⟨rfl, by omega⟩

/-- Claim C3 (amended).  The wait loop returns the first polled step
different from `known`; provided every poll result is at least `known`
(the store's completed-step set only grows and `known` was already
observed), the returned step is strictly greater than `known`, so within a
watch session the reported steps strictly increase. -/
theorem c3_await_strictly_greater (known : Int) (polls : List Int) (s : Int)
    (hmono : ∀ p ∈ polls, known ≤ p)
    (hret : wait_for_new_checkpoint known polls = some s) : known < s := by
  induction polls with
  | nil => simp [wait_for_new_checkpoint] at hret
  | cons p rest ih =>
    simp only [wait_for_new_checkpoint] at hret
    by_cases hp : p = known
    · rw [if_pos hp] at hret
      exact ih (fun q hq => hmono q (List.mem_cons_of_mem _ hq)) hret
    · rw [if_neg hp] at hret
      have hps : p = s := by injection hret
      have hk : known ≤ p := hmono p (List.mem_cons_self _ _)
      omega

/-- Witness for C3's amended claim: after step 10, polls `[10, 20]` make
the loop keep waiting past 10 and report 20 > 10. -/
theorem c3_witness :
    wait_for_new_checkpoint 10 [10, 20] = some 20 ∧ (10 : Int) < 20 := by
  refine ⟨rfl, c3_await_strictly_greater 10 [10, 20] 20 ?_ rfl⟩
  intro p hp
  fin_cases hp <;> omega

/-- Claim C4.  With a known checkpoint step the loop invokes the
early-stopping callback with the aggregate metrics, the step and
`is_last_ckpt = step + save_interval_steps > num_train_steps`, and stops
iff the callback returns true or `is_last_ckpt` holds; with no known
checkpoint step the decision block is skipped and the loop proceeds to
wait for a checkpoint. -/
theorem c4_stop_decision {M : Type} (last saveInterval numTrain : Int)
    (cb : M → Int → Bool → Bool) (metrics : M) :
    eval_loop_stop_decision (some last) saveInterval numTrain cb metrics =
      (cb metrics last (decide (last + saveInterval > numTrain)) ||
        decide (last + saveInterval > numTrain)) ∧
    eval_loop_stop_decision (none : Option Int) saveInterval numTrain cb metrics = false := by
  constructor
  · unfold eval_loop_stop_decision
    cases h : cb metrics last (decide (last + saveInterval > numTrain)) <;> simp [h]
  · rfl

/-- Claim C5.  A successful skip probe makes the decode pass for that
split perform zero executor calls, append 0 to the performed-step counts
and record no (`None`) metrics, in both the pmap and the spmd paths;
consequently, once a first (non-empty) pass has persisted its outputs, a
second decode-once run over the same `(split, step)` skips and performs
zero executor calls. -/
theorem c5_decode_skip_idempotent :
    (∀ (processIndex : Nat) (budget : Int) (avail outs : Nat),
      decode_once_split_spmd processIndex true budget avail outs = ⟨0, 0, 0, false, []⟩) ∧
    (∀ (processIndex : Nat) (agg : Bool) (budget : Int) (avail outs stepI : Nat)
        (tm : Bool) (mv bv : ℚ) (states : TrainState),
      decode_once_split_pmap processIndex agg true budget avail outs stepI tm mv bv states =
        ⟨0, 0, 0, false, []⟩) ∧
    (∀ (store : Option Nat) (budget : Int) (avail outs : Nat),
      _can_load_decode_outs store = true →
      (decode_split_spmd_with_store 0 store budget avail outs).1 = ⟨0, 0, 0, false, []⟩) ∧
    (∀ (budget : Int) (avail outs : Nat), budget ≠ 0 → 1 ≤ avail → 1 ≤ outs →
      (decode_split_spmd_with_store 0
          (decode_split_spmd_with_store 0 none budget avail outs).2 budget avail outs).1 =
        ⟨0, 0, 0, false, []⟩) := by
  refine ⟨fun _ _ _ _ => rfl, fun _ _ _ _ _ _ _ _ _ _ => rfl, ?_, ?_⟩
  · intro store budget avail outs h
    simp [decode_split_spmd_with_store, h, decode_once_split_spmd]
  · intro budget avail outs hb ha ho
    have hcons := decodeConsumed_pos hb ha
    have hstore : (decode_split_spmd_with_store 0 none budget avail outs).2 =
        some (decodeConsumed budget avail * outs) := by
      simp [decode_split_spmd_with_store, _can_load_decode_outs, decode_once_split_spmd]
    rw [hstore]
    have hprobe : _can_load_decode_outs (some (decodeConsumed budget avail * outs)) = true := by
      unfold _can_load_decode_outs
      exact decide_eq_true (Nat.mul_pos hcons ho)
    simp [decode_split_spmd_with_store, hprobe, decode_once_split_spmd]

/-- Witness for C5: a store with 2 persisted entries makes the probe
succeed and the pass skip; a first pass with budget −1 over 3 batches
persists its outputs, so the second run skips. -/
theorem c5_witness :
    _can_load_decode_outs (some 2) = true ∧
    (decode_split_spmd_with_store 0 (some 2) (-1) 3 1).1 = ⟨0, 0, 0, false, []⟩ ∧
    (decode_split_spmd_with_store 0
        (decode_split_spmd_with_store 0 none (-1) 3 1).2 (-1) 3 1).1 =
      ⟨0, 0, 0, false, []⟩ := by
  refine ⟨rfl, ?_, ?_⟩
  · exact c5_decode_skip_idempotent.2.2.1 (some 2) (-1) 3 1 rfl
  · exact c5_decode_skip_idempotent.2.2.2 (-1) 3 1 (by omega) (by omega) (by omega)

/-- Claim C6 (counterexample).  Merging a populated accumulator with an
empty update raises the key-mismatch `ValueError` even though the two
accumulators are not both populated — and instead of being the identity. -/
theorem c6_counterexample :
    _merge_clu_metrics Nat.add [("a", 1)] [] =
      .error "metrics and updated_metrics keys do not match" ∧
    ([] : List (String × Nat)).isEmpty = true := by
  constructor
  · rfl
  · rfl

/-- Claim C6 (amended).  Merging into an empty accumulator is the
identity (the update is adopted wholesale); the merge raises exactly when
the existing accumulator is populated and the key sets differ — in
particular it raises when a populated accumulator meets an empty update;
when the existing accumulator is populated and the key sets agree, every
key is merged pointwise. -/
theorem c6_merge_amended {M : Type} (f : M → M → M) (m u : List (String × M)) :
    (_merge_clu_metrics f [] u = .ok u) ∧
    ((∃ e, _merge_clu_metrics f m u = .error e) ↔ m ≠ [] ∧ metricKeys m ≠ metricKeys u) ∧
    (m ≠ [] → metricKeys m = metricKeys u →
      _merge_clu_metrics f m u =
        .ok (m.map fun p =>
          (p.1,
            match u.lookup p.1 with
            | some w => f p.2 w
            | none => p.2))) := by
  refine ⟨rfl, ?_, ?_⟩
  · unfold _merge_clu_metrics
    cases hm : m.isEmpty with
    | true =>
      have : m = [] := by
        cases m with
        | nil => rfl
        | cons x xs => simp [List.isEmpty] at hm
      subst this
      simp
    | false =>
      have hne : m ≠ [] := by
        cases m with
        | nil => simp [List.isEmpty] at hm
        | cons x xs => simp
      by_cases hk : metricKeys m ≠ metricKeys u
      · rw [if_pos (by simp), if_pos hk]
        simp [hne, hk]
      · rw [if_pos (by simp), if_neg hk]
        simp [hne, hk]
  · intro hne hk
    unfold _merge_clu_metrics
    have hm : m.isEmpty = false := by
      cases m with
      | nil => exact absurd rfl hne
      | cons x xs => rfl
    rw [hm]
    rw [if_pos (by simp), if_neg (by simp [hk])]

/-- Witness for C6's amended claim: two singleton accumulators over the
same key merge pointwise. -/
theorem c6_witness :
    (([("a", 1)] : List (String × Nat)) ≠ []) ∧
    _merge_clu_metrics Nat.add [("a", 1)] [("a", 2)] = .ok [("a", 3)] := by
  have h := (c6_merge_amended Nat.add [("a", 1)] [("a", 2)]).2.2 (by simp) rfl
  refine ⟨by simp, ?_⟩
  rw [h]
  rfl

/-- Claim C7.  On the designated process the tracker rewrites its record
and saves a best-so-far checkpoint exactly when the new value is strictly
smaller than the stored best (initialized to `sys.float_info.max` when no
record exists); feeding the values 5.0, 7.0, 3.0, 3.0, 2.9 at steps 1..5
produces persistence events exactly at steps 1, 3 and 5, and the stored
best ends at 2.9. -/
theorem c7_tracker_monotonicity :
    (∀ (mv storedBest : ℚ) (step : Nat) (states : TrainState),
      ((maybe_update_min_tracked_metric 0 mv step storedBest states).writes.isEmpty = false ↔
        mv < storedBest)) ∧
    runTracker floatInfoMax [(5, 1), (7, 2), (3, 3), (3, 4), (29 / 10, 5)] =
      (29 / 10, [true, false, true, false, true]) := by
  constructor
  · intro mv storedBest step states
    unfold maybe_update_min_tracked_metric
    by_cases h : mv < storedBest
    · simp [h]
    · simp [h]
  · have h1 : (5 : ℚ) < floatInfoMax := by norm_num [floatInfoMax]
    have h2 : ¬ ((7 : ℚ) < 5) := by norm_num
    have h3 : (3 : ℚ) < 5 := by norm_num
    have h4 : ¬ ((3 : ℚ) < 3) := by norm_num
    have h5 : (29 / 10 : ℚ) < 3 := by norm_num
    simp [runTracker, maybe_update_min_tracked_metric, h1, h2, h3, h4, h5]

/-- Claim C8 (counterexample).  When the in-memory snapshot still carries
optimizer state (as it does in the metric-tracking pmap decode path, where
`get_model_states` deliberately skips `trim_opt_states`), an improvement
persists that snapshot unchanged: the saved best-so-far checkpoint
contains a non-empty optimizer state. -/
theorem c8_counterexample :
    (maybe_update_min_tracked_metric 0 1 3 2 stateWithOptState).savedCheckpoint =
      some stateWithOptState ∧
    stateWithOptState.optStates ≠ [] := by
  constructor
  · have h : (1 : ℚ) < 2 := by norm_num
    simp [maybe_update_min_tracked_metric, h]
  · simp [stateWithOptState]

/-- Claim C8 (amended).  Whenever the tracker persists a best-so-far
checkpoint, it saves the first replica of the in-memory snapshot
unchanged — no optimizer-state trimming happens at the save; the saved
optimizer state is empty exactly when the snapshot's is (e.g. after EMA
extraction).  In the metric-tracking path the restore logic keeps the
restored optimizer state rather than trimming it. -/
theorem c8_saved_state_untrimmed :
    (∀ (processIndex : Nat) (mv : ℚ) (step : Nat) (bv : ℚ) (s t : TrainState),
      (maybe_update_min_tracked_metric processIndex mv step bv s).savedCheckpoint = some t →
        t = s) ∧
    (∀ (restored freshInit : TrainState),
      get_model_states_core (some restored) freshInit false true = .ok restored) := by
  constructor
  · intro processIndex mv step bv s t h
    unfold maybe_update_min_tracked_metric at h
    by_cases h0 : processIndex = 0
    · rw [if_pos h0] at h
      by_cases hlt : mv < bv
      · rw [if_pos hlt] at h
        have := h.symm
        injection this
      · rw [if_neg hlt] at h
        exact absurd h (by simp)
    · rw [if_neg h0] at h
      exact absurd h (by simp)
  · intro restored freshInit
    rfl

/-- Witness for C8's amended claim at a concrete improving update over a
snapshot that still carries optimizer state. -/
theorem c8_witness :
    stateWithOptState = stateWithOptState ∧
    get_model_states_core (some stateWithOptState) emptyTrainState false true =
      .ok stateWithOptState := by
  refine ⟨?_, c8_saved_state_untrimmed.2 stateWithOptState emptyTrainState⟩
  refine c8_saved_state_untrimmed.1 0 1 3 2 stateWithOptState stateWithOptState ?_
  have h : (1 : ℚ) < 2 := by norm_num
  simp [maybe_update_min_tracked_metric, h]

/-- Claim C9.  A worker whose process index is not 0 performs no
destructive filesystem write in a decode pass: in both the pmap and the
spmd split passes the write list is empty, and a tracker call performs no
record/checkpoint write and saves no checkpoint. -/
theorem c9_nonzero_host_writes_nothing (processIndex : Nat) (h : processIndex ≠ 0) :
    (∀ (agg already : Bool) (budget : Int) (avail outs stepI : Nat) (tm : Bool)
        (mv bv : ℚ) (states : TrainState),
      (decode_once_split_pmap processIndex agg already budget avail outs stepI tm mv bv
          states).writes = []) ∧
    (∀ (already : Bool) (budget : Int) (avail outs : Nat),
      (decode_once_split_spmd processIndex already budget avail outs).writes = []) ∧
    (∀ (mv : ℚ) (step : Nat) (bv : ℚ) (states : TrainState),
      (maybe_update_min_tracked_metric processIndex mv step bv states).writes = [] ∧
      (maybe_update_min_tracked_metric processIndex mv step bv states).savedCheckpoint =
        none) := by
  refine ⟨?_, ?_, ?_⟩
  · intro agg already budget avail outs stepI tm mv bv states
    cases already with
    | true => rfl
    | false =>
      cases tm with
      | true => simp [decode_once_split_pmap, maybe_update_min_tracked_metric, h]
      | false => simp [decode_once_split_pmap, h]
  · intro already budget avail outs
    cases already with
    | true => rfl
    | false => simp [decode_once_split_spmd, h]
  · intro mv step bv states
    constructor <;> simp [maybe_update_min_tracked_metric, h]

/-- Witness for C9 at process index 1. -/
theorem c9_witness :
    (decode_once_split_spmd 1 false (-1) 2 1).writes = [] ∧
    (maybe_update_min_tracked_metric 1 1 2 3 emptyTrainState).writes = [] := by
  have h := c9_nonzero_host_writes_nothing 1 (by omega)
  exact ⟨h.2.1 false (-1) 2 1, (h.2.2 1 2 3 emptyTrainState).1⟩

/-! ## Lemmas about the EMA scans -/

lemma any_eq_false_forall {α : Type} {p : α → Bool} {l : List α} (h : l.any p = false) :
    ∀ x ∈ l, p x = false := by
  intro x hx
  cases hpx : p x with
  | false => rfl
  | true =>
    have hany : l.any p = true := List.any_eq_true.mpr ⟨x, hx, hpx⟩
    rw [hany] at h
    simp at h

lemma entryEma_none_of_any_false {items : List OptEntry}
    (h : (items.any fun e => (entryEma e).isSome) = false) :
    ∀ v ∈ items, entryEma v = none := by
  intro v hv
  have hs := any_eq_false_forall h v hv
  rcases he : entryEma v with _ | t
  · rfl
  · rw [he] at hs
    simp at hs

lemma vecFoldStep_no_ema :
    ∀ (items : List OptEntry), (∀ v ∈ items, entryEma v = none) →
      ∀ (acc : Option PTree),
        items.foldl
          (fun a v =>
            match entryEma v with
            | some t =>
              match a with
              | none => some t
              | some r => some (combineMasked r t)
            | none => a)
          acc = acc := by
  intro items
  induction items with
  | nil => intro _ acc; rfl
  | cons v vs ih =>
    intro h acc
    rw [List.foldl_cons]
    have hv : entryEma v = none := h v (List.mem_cons_self _ _)
    simp only [hv]
    exact ih (fun q hq => h q (List.mem_cons_of_mem _ hq)) acc

lemma vecAccum_of_no_ema (item : OptEntry) (h : entryTupHasEma item = false)
    (acc : Option PTree) : vecAccum acc item = acc := by
  cases item with
  | dict es => rfl
  | other => rfl
  | tup items =>
    simp only [entryTupHasEma] at h
    exact vecFoldStep_no_ema items (entryEma_none_of_any_false h) acc

lemma vecFold_eq_none_of_no_ema (entries : List (String × OptEntry))
    (h : ∀ p ∈ entries, entryTupHasEma p.2 = false) :
    (entries.map Prod.snd).foldl vecAccum none = none := by
  induction entries with
  | nil => rfl
  | cons p ps ih =>
    rw [List.map_cons, List.foldl_cons,
      vecAccum_of_no_ema p.2 (h p (List.mem_cons_self _ _)) none]
    exact ih (fun q hq => h q (List.mem_cons_of_mem _ hq))

lemma findSome?_entryEma_none (items : List OptEntry)
    (h : ∀ v ∈ items, entryEma v = none) : items.findSome? entryEma = none := by
  induction items with
  | nil => rfl
  | cons v vs ih =>
    simp only [List.findSome?, h v (List.mem_cons_self _ _)]
    exact ih (fun q hq => h q (List.mem_cons_of_mem _ hq))

lemma extract_ema_single (st : Nat) (vars : PTree) (l : LearnerOpt) :
    extract_ema ⟨st, vars, [l]⟩ =
      if isVectorizedLearner l then
        match vecFold l with
        | some ret => Except.ok ⟨st, ret, []⟩
        | none => Except.error "Could not find EMA states"
      else
        match nonVecFind l with
        | some t => Except.ok ⟨st, t, []⟩
        | none => Except.error "Could not find EMA states" := rfl

/-- Claim C10.  `extract_ema` raises `ValueError` unless the state holds
exactly one learner's optimizer state, raises when no EMA entry can be
found in it, and on success returns a state with the input's step, the
found EMA parameter tree as `mdl_vars` and an empty optimizer state. -/
theorem c10_extract_ema_contract (s : TrainState) :
    (s.optStates.length ≠ 1 → ∃ e, extract_ema s = .error e) ∧
    (∀ l, s.optStates = [l] → learnerHasEma l = false → ∃ e, extract_ema s = .error e) ∧
    (∀ t, extract_ema s = .ok t →
      t.step = s.step ∧ t.optStates = [] ∧
      (∀ l, s.optStates = [l] →
        (if isVectorizedLearner l then vecFold l else nonVecFind l) = some t.mdlVars)) := by
  obtain ⟨st, vars, opt⟩ := s
  refine ⟨?_, ?_, ?_⟩
  · intro hlen
    rcases opt with _ | ⟨l, _ | ⟨l2, rest⟩⟩
    · exact ⟨"EMA currently only supports a single learner", rfl⟩
    · simp at hlen
    · exact ⟨"EMA currently only supports a single learner", rfl⟩
  · intro l hs hema
    have hs' : opt = [l] := hs
    subst hs'
    refine ⟨"Could not find EMA states", ?_⟩
    rw [extract_ema_single]
    cases l with
    | listC items =>
      simp only [learnerHasEma] at hema
      have hnone : nonVecFind (.listC items) = none :=
        findSome?_entryEma_none items (entryEma_none_of_any_false hema)
      rw [if_neg (by simp [isVectorizedLearner]), hnone]
    | dictC entries =>
      simp only [learnerHasEma] at hema
      have hall : ∀ p ∈ entries, entryTupHasEma p.2 = false := by
        intro p hp
        have := any_eq_false_forall hema p hp
        rcases p with ⟨k, v⟩
        cases v with
        | dict es => rfl
        | other => rfl
        | tup items => simpa [entryTupHasEma] using this
      by_cases hv : isVectorizedLearner (.dictC entries) = true
      · have hnone : vecFold (.dictC entries) = none := vecFold_eq_none_of_no_ema entries hall
        rw [if_pos hv, hnone]
      · have hnone : nonVecFind (.dictC entries) = none := rfl
        rw [if_neg hv, hnone]
  · intro t ht
    rcases opt with _ | ⟨l, _ | ⟨l2, rest⟩⟩
    · rw [show extract_ema ⟨st, vars, []⟩ =
          Except.error "EMA currently only supports a single learner" from rfl] at ht
      simp at ht
    · rw [extract_ema_single] at ht
      by_cases hv : isVectorizedLearner l = true
      · rw [if_pos hv] at ht
        rcases hf : vecFold l with _ | ret
        · rw [hf] at ht
          simp at ht
        · rw [hf] at ht
          have hteq : (⟨st, ret, []⟩ : TrainState) = t := by
            injection ht with h'
          subst hteq
          refine ⟨rfl, rfl, ?_⟩
          intro l' hl'
          have hll : l = l' := by injection hl'
          subst hll
          rw [if_pos hv, hf]
      · rw [if_neg hv] at ht
        rcases hf : nonVecFind l with _ | tr
        · rw [hf] at ht
          simp at ht
        · rw [hf] at ht
          have hteq : (⟨st, tr, []⟩ : TrainState) = t := by
            injection ht with h'
          subst hteq
          refine ⟨rfl, rfl, ?_⟩
          intro l' hl'
          have hll : l = l' := by injection hl'
          subst hll
          rw [if_neg hv, hf]
    · rw [show extract_ema ⟨st, vars, l :: l2 :: rest⟩ =
          Except.error "EMA currently only supports a single learner" from rfl] at ht
      simp at ht

/-- Witness for C10: a state with no learner state errors; a single
non-vectorized learner with an `ema` dict succeeds, keeping the step and
emptying the optimizer state. -/
theorem c10_witness :
    (∃ e, extract_ema emptyTrainState = .error e) ∧
    extract_ema emaSampleState = .ok ⟨7, .leaf 3, []⟩ ∧
    (⟨7, PTree.leaf 3, []⟩ : TrainState).step = emaSampleState.step ∧
    (⟨7, PTree.leaf 3, []⟩ : TrainState).optStates = [] := by
  have h1 := (c10_extract_ema_contract emptyTrainState).1 (by decide)
  have h2 := (c10_extract_ema_contract emaSampleState).2.2 ⟨7, .leaf 3, []⟩ rfl
  exact ⟨h1, rfl, h2.1, h2.2.1⟩

end PaxEval
